import Mathlib

/-!
Shallow embedding of `src/src/lib.rs` (a simplified legacy-transaction codec,
transaction builder, and CLI argument interpreter) together with theorems
checking the specification's claims against it.

Bytes are modelled as `Nat` (each value below 256 in every byte list the code
produces), `u32`/`u64` as `Nat`, `i32` as `Int`, `Vec<u8>` as `List Nat`,
`Result<T, BitcoinError>` as the explicit `BResult` type below.
-/

/-- The `BitcoinError` enum of the source. -/
inductive BitcoinError where
  | InvalidTransaction
  | InvalidScript
  | InvalidAmount
  | ParseError (msg : String)
deriving DecidableEq, Repr

/-- Rust's `Result<α, BitcoinError>`, with a decidable equality. -/
inductive BResult (α : Type) where
  | ok (val : α)
  | err (e : BitcoinError)
deriving DecidableEq, Repr

/-- `OutPoint`: `txid: [u8; 32]` (modelled as a byte list), `vout: u32`. -/
structure OutPoint where
  txid : List Nat
  vout : Nat
deriving DecidableEq, Repr

/-- `TxInput`: previous output, unlocking script bytes, sequence number. -/
structure TxInput where
  previous_output : OutPoint
  script_sig : List Nat
  sequence : Nat
deriving DecidableEq, Repr

/-- `TxOutput`: value in satoshis (`u64`) and locking script bytes. -/
structure TxOutput where
  value : Nat
  script_pubkey : List Nat
deriving DecidableEq, Repr

/-- `LegacyTransaction`: `version: i32`, inputs, outputs, `lock_time: u32`. -/
structure LegacyTransaction where
  version : Int
  inputs : List TxInput
  outputs : List TxOutput
  lock_time : Nat
deriving DecidableEq, Repr

/-- The `LegacyTransactionBuilder` struct (same fields as the transaction). -/
structure LegacyTransactionBuilder where
  version : Int
  inputs : List TxInput
  outputs : List TxOutput
  lock_time : Nat
deriving DecidableEq, Repr

/-- `Default for LegacyTransactionBuilder`: version 1, empty inputs and
outputs (the capacity hint of `Vec::with_capacity(1)` has no observable
effect on the element sequence), lock time 0. -/
def LegacyTransactionBuilder.mkDefault : LegacyTransactionBuilder :=
  { version := 1, inputs := [], outputs := [], lock_time := 0 }

/-- `LegacyTransactionBuilder::new`, which just calls `default`. -/
def LegacyTransactionBuilder.new : LegacyTransactionBuilder :=
  LegacyTransactionBuilder.mkDefault

/-- The builder method `version` (renamed: the field projection has the
source's name): overwrite the version field. -/
def LegacyTransactionBuilder.set_version (b : LegacyTransactionBuilder)
    (version : Int) : LegacyTransactionBuilder :=
  { b with version := version }

/-- The builder method `add_input`: push one input. -/
def LegacyTransactionBuilder.add_input (b : LegacyTransactionBuilder)
    (input : TxInput) : LegacyTransactionBuilder :=
  { b with inputs := b.inputs ++ [input] }

/-- The builder method `add_output`: push one output. -/
def LegacyTransactionBuilder.add_output (b : LegacyTransactionBuilder)
    (output : TxOutput) : LegacyTransactionBuilder :=
  { b with outputs := b.outputs ++ [output] }

/-- The builder method `lock_time` (renamed: the field projection has the
source's name): overwrite the lock time field. -/
def LegacyTransactionBuilder.set_lock_time (b : LegacyTransactionBuilder)
    (lock_time : Nat) : LegacyTransactionBuilder :=
  { b with lock_time := lock_time }

/-- `LegacyTransactionBuilder::build`: move the four fields into a
`LegacyTransaction`. -/
def LegacyTransactionBuilder.build (b : LegacyTransactionBuilder) :
    LegacyTransaction :=
  { version := b.version, inputs := b.inputs, outputs := b.outputs,
    lock_time := b.lock_time }

/-- `LegacyTransaction::builder`. -/
def LegacyTransaction.builder : LegacyTransactionBuilder :=
  LegacyTransactionBuilder.new

/-- `u32::to_le_bytes`: the four little-endian bytes of `n % 2^32`. -/
def u32ToLeBytes (n : Nat) : List Nat :=
  [n % 256, n / 256 % 256, n / 65536 % 256, n / 16777216 % 256]

/-- `i32::to_le_bytes`: the two's-complement little-endian bytes, via the
unsigned residue of the value modulo `2^32`. -/
def i32ToLeBytes (v : Int) : List Nat :=
  u32ToLeBytes ((v % 4294967296).toNat)

/-- Little-endian reassembly of a byte list into an unsigned integer
(`u32::from_le_bytes` when applied to four bytes). -/
def leBytesToNat (bs : List Nat) : Nat :=
  bs.foldr (fun b acc => b + 256 * acc) 0

/-- `i32::from_le_bytes` on a four-byte list: reassemble the unsigned value
and reinterpret it in two's complement. -/
def i32FromLeBytes (bs : List Nat) : Int :=
  let n := leBytesToNat bs
  if n < 2147483648 then (n : Int) else (n : Int) - 4294967296

/-- `impl BitcoinSerialize for LegacyTransaction`: emit the version's four
little-endian bytes followed by the lock time's four little-endian bytes
(the source serializes only these two fields). -/
def LegacyTransaction.serialize (t : LegacyTransaction) : List Nat :=
  i32ToLeBytes t.version ++ u32ToLeBytes t.lock_time

/-- `impl TryFrom<&[u8]> for LegacyTransaction`: reject inputs shorter than
four bytes, otherwise read the version from bytes 0..4 and build a
transaction with only that field set (the source parses nothing else). -/
def LegacyTransaction.try_from (data : List Nat) :
    BResult LegacyTransaction :=
  if data.length < 4 then .err BitcoinError.InvalidTransaction
  else
    .ok ((LegacyTransaction.builder.set_version
      (i32FromLeBytes (data.take 4))).build)

/-- The `CliCommand` enum. -/
inductive CliCommand where
  | Send (amount : Nat) (address : String)
  | Balance
deriving DecidableEq, Repr

/-- Rust's `str::parse::<u64>`: an optional leading `+` sign, then at least
one ASCII digit and nothing else, with the value below `2^64`; anything
else is an error (`none`). -/
def rustParseU64 (s : String) : Option Nat :=
  let digits := match s.data with
    | '+' :: rest => rest
    | cs => cs
  if digits = [] then none
  else if digits.all (fun c => c.isDigit) then
    let n := digits.foldl (fun acc c => acc * 10 + (c.toNat - 48)) 0
    if n < 18446744073709551616 then some n else none
  else none

/-- `impl TryFrom<&[String]> for CliCommand`: first argument selects the
command; `send` needs an amount argument and an address argument (checked in
that order, before the amount is parsed); extra arguments are never read. -/
def CliCommand.try_from (args : List String) : BResult CliCommand :=
  match args with
  | [] => .err (.ParseError "Not enough parameters")
  | cmd :: rest =>
    if cmd = "send" then
      match rest with
      | amount :: address :: _ =>
        match rustParseU64 amount with
        | some n => .ok (.Send n address)
        | none => .err (.ParseError "Invalid amount")
      | _ => .err (.ParseError "Not enough arguments")
    else if cmd = "balance" then .ok .Balance
    else .err (.ParseError ("Unknown command: " ++ cmd))

/-- `parse_cli_args`: delegate to the `TryFrom` implementation. -/
def parse_cli_args (args : List String) : BResult CliCommand :=
  CliCommand.try_from args

/-- C1: the round-trip law fails on the code. Deserializing the serialization
of the transaction with version 1, no inputs, no outputs and lock time 1
yields the transaction with lock time 0, not the original: the decoder drops
every field except the version. -/
theorem c1_roundtrip_drops_lock_time :
    LegacyTransaction.try_from (LegacyTransaction.serialize ⟨1, [], [], 1⟩)
      = .ok ⟨1, [], [], 0⟩ ∧
    LegacyTransaction.try_from (LegacyTransaction.serialize ⟨1, [], [], 1⟩)
      ≠ .ok ⟨1, [], [], 1⟩ := by decide

/-- C2: the layout claim fails on the code. A transaction with one input
(32-byte txid, vout, script, sequence) serializes to just eight bytes:
the version and the lock time. No input count, txid bytes, vout, script
or sequence appear in the output. -/
theorem c2_serialize_omits_inputs :
    LegacyTransaction.serialize
      ⟨1, [⟨⟨List.replicate 32 0, 0⟩, [], 4294967295⟩], [], 0⟩
      = [1, 0, 0, 0, 0, 0, 0, 0] := by decide

/-- C3: trailing bytes are not rejected by the code. Appending the byte 255
to a serialized transaction still deserializes successfully, because the
decoder ignores everything after the four version bytes. -/
theorem c3_trailing_byte_accepted :
    LegacyTransaction.try_from
      (LegacyTransaction.serialize ⟨1, [], [], 0⟩ ++ [255])
      = .ok ⟨1, [], [], 0⟩ := by decide

/-- C4: truncation is not rejected by the code. The first four bytes of an
eight-byte serialization (so <code>k = 4</code> strictly below the length)
still deserialize successfully. -/
theorem c4_truncation_to_four_bytes_accepted :
    ((LegacyTransaction.serialize ⟨1, [], [], 0⟩).take 4).length
        < (LegacyTransaction.serialize ⟨1, [], [], 0⟩).length ∧
    LegacyTransaction.try_from
      ((LegacyTransaction.serialize ⟨1, [], [], 0⟩).take 4)
      = .ok ⟨1, [], [], 0⟩ := by decide

/-- C5: the empty input, the three-byte input `[1, 0, 0]`, and in general
every input shorter than four bytes are rejected with exactly the
`InvalidTransaction` error variant. -/
theorem c5_short_input_rejected :
    LegacyTransaction.try_from [] = .err .InvalidTransaction ∧
    LegacyTransaction.try_from [1, 0, 0] = .err .InvalidTransaction ∧
    ∀ data : List Nat, data.length < 4 →
      LegacyTransaction.try_from data = .err .InvalidTransaction := by
  refine ⟨by decide, by decide, ?_⟩
  intro data h
  unfold LegacyTransaction.try_from
  rw [if_pos h]

/-- Witness for C5 at the concrete one-byte input `[7]`. -/
theorem c5_short_input_rejected_witness :
    LegacyTransaction.try_from [7] = .err .InvalidTransaction :=
  c5_short_input_rejected.2.2 [7] (by decide)

/-- C6: every input of length at least four decodes successfully to the
transaction whose version is the signed little-endian integer of bytes 0..4
and whose other fields are empty or zero; and the result depends only on the
first four bytes. -/
theorem c6_decode_reads_only_first_four_bytes :
    (∀ data : List Nat, 4 ≤ data.length →
      LegacyTransaction.try_from data
        = .ok ⟨i32FromLeBytes (data.take 4), [], [], 0⟩) ∧
    (∀ d1 d2 : List Nat, d1.take 4 = d2.take 4 →
      LegacyTransaction.try_from d1 = LegacyTransaction.try_from d2) := by
  have hmain : ∀ data : List Nat, 4 ≤ data.length →
      LegacyTransaction.try_from data
        = .ok ⟨i32FromLeBytes (data.take 4), [], [], 0⟩ := by
    intro data h
    unfold LegacyTransaction.try_from
    rw [if_neg (Nat.not_lt.mpr h)]
    rfl
  refine ⟨hmain, ?_⟩
  intro d1 d2 htake
  have hlen : min 4 d1.length = min 4 d2.length := by
    have := congrArg List.length htake
    simpa [List.length_take] using this
  by_cases h1 : d1.length < 4
  · have h2 : d2.length < 4 := by omega
    unfold LegacyTransaction.try_from
    rw [if_pos h1, if_pos h2]
  · have h1' : 4 ≤ d1.length := Nat.not_lt.mp h1
    have h2 : 4 ≤ d2.length := by omega
    rw [hmain d1 h1', hmain d2 h2, htake]

/-- Witness for C6 at the concrete five-byte inputs `[2, 0, 0, 0, 9]` and
`[2, 0, 0, 0, 77]`, which agree on their first four bytes. -/
theorem c6_decode_reads_only_first_four_bytes_witness :
    LegacyTransaction.try_from [2, 0, 0, 0, 9]
      = .ok ⟨i32FromLeBytes ([2, 0, 0, 0, 9].take 4), [], [], 0⟩ ∧
    LegacyTransaction.try_from [2, 0, 0, 0, 9]
      = LegacyTransaction.try_from [2, 0, 0, 0, 77] :=
  ⟨c6_decode_reads_only_first_four_bytes.1 [2, 0, 0, 0, 9] (by decide),
   c6_decode_reads_only_first_four_bytes.2 [2, 0, 0, 0, 9] [2, 0, 0, 0, 77]
     (by decide)⟩

/-- C7: the fresh builder has version 1, empty inputs, empty outputs and
lock time 0 (and `builder`, `new` and the default agree); each setter
overwrites only its own field; `add_input` and `add_output` append at the
end, preserving order and the other fields; `build` is total and copies the
four fields unchanged. -/
theorem c7_builder_contract :
    LegacyTransaction.builder = LegacyTransactionBuilder.new ∧
    LegacyTransactionBuilder.new = LegacyTransactionBuilder.mkDefault ∧
    LegacyTransactionBuilder.new.version = 1 ∧
    LegacyTransactionBuilder.new.inputs = [] ∧
    LegacyTransactionBuilder.new.outputs = [] ∧
    LegacyTransactionBuilder.new.lock_time = 0 ∧
    (∀ (b : LegacyTransactionBuilder) (v : Int),
      (b.set_version v).version = v ∧
      (b.set_version v).inputs = b.inputs ∧
      (b.set_version v).outputs = b.outputs ∧
      (b.set_version v).lock_time = b.lock_time) ∧
    (∀ (b : LegacyTransactionBuilder) (t : Nat),
      (b.set_lock_time t).lock_time = t ∧
      (b.set_lock_time t).version = b.version ∧
      (b.set_lock_time t).inputs = b.inputs ∧
      (b.set_lock_time t).outputs = b.outputs) ∧
    (∀ (b : LegacyTransactionBuilder) (i : TxInput),
      (b.add_input i).inputs = b.inputs ++ [i] ∧
      (b.add_input i).version = b.version ∧
      (b.add_input i).outputs = b.outputs ∧
      (b.add_input i).lock_time = b.lock_time) ∧
    (∀ (b : LegacyTransactionBuilder) (o : TxOutput),
      (b.add_output o).outputs = b.outputs ++ [o] ∧
      (b.add_output o).version = b.version ∧
      (b.add_output o).inputs = b.inputs ∧
      (b.add_output o).lock_time = b.lock_time) ∧
    (∀ b : LegacyTransactionBuilder,
      b.build.version = b.version ∧ b.build.inputs = b.inputs ∧
      b.build.outputs = b.outputs ∧ b.build.lock_time = b.lock_time) := by
  refine ⟨rfl, rfl, rfl, rfl, rfl, rfl, ?_, ?_, ?_, ?_, ?_⟩ <;>
    intros <;> exact ⟨rfl, rfl, rfl, rfl⟩

/-- C8: the four CLI scenarios. `send 100 1A2b3C` parses to the Send
command; `send -5 x` fails with the amount parse error; `balance` parses to
the Balance command; `fly` fails with the unknown-command error. -/
theorem c8_cli_scenarios :
    parse_cli_args ["send", "100", "1A2b3C"] = .ok (.Send 100 "1A2b3C") ∧
    parse_cli_args ["send", "-5", "x"] = .err (.ParseError "Invalid amount") ∧
    parse_cli_args ["balance"] = .ok .Balance ∧
    parse_cli_args ["fly"] = .err (.ParseError "Unknown command: fly") := by
  refine ⟨rfl, rfl, rfl, by decide⟩

/-- C9: serialization always returns exactly eight bytes, the little-endian
version followed by the little-endian lock time, and ignores the inputs and
outputs entirely: transactions agreeing on version and lock time serialize
identically. -/
theorem c9_serialize_is_version_then_lock_time :
    (∀ t : LegacyTransaction,
      t.serialize = i32ToLeBytes t.version ++ u32ToLeBytes t.lock_time ∧
      t.serialize.length = 8) ∧
    (∀ t1 t2 : LegacyTransaction, t1.version = t2.version →
      t1.lock_time = t2.lock_time → t1.serialize = t2.serialize) := by
  constructor
  · intro t
    refine ⟨rfl, ?_⟩
    simp [LegacyTransaction.serialize, i32ToLeBytes, u32ToLeBytes]
  · intro t1 t2 hv hl
    simp [LegacyTransaction.serialize, hv, hl]

/-- Witness for C9: a transaction with no inputs or outputs and one with an
input and an output serialize to the same bytes when version and lock time
agree. -/
theorem c9_serialize_is_version_then_lock_time_witness :
    LegacyTransaction.serialize ⟨1, [], [], 0⟩
      = LegacyTransaction.serialize
          ⟨1, [⟨⟨List.replicate 32 0, 0⟩, [2], 3⟩], [⟨5, [6]⟩], 0⟩ :=
  c9_serialize_is_version_then_lock_time.2
    ⟨1, [], [], 0⟩
    ⟨1, [⟨⟨List.replicate 32 0, 0⟩, [2], 3⟩], [⟨5, [6]⟩], 0⟩ rfl rfl

/-- C10: arguments past those a command consumes are ignored: `balance`
with any extras still parses to Balance, and `send a b` with any extras
parses exactly as `send a b`; the empty argument list fails with the
"Not enough parameters" parse error. -/
theorem c10_cli_ignores_extra_args :
    (∀ extras : List String,
      parse_cli_args ("balance" :: extras) = .ok .Balance) ∧
    (∀ (a b : String) (extras : List String),
      parse_cli_args ("send" :: a :: b :: extras)
        = parse_cli_args ["send", a, b]) ∧
    parse_cli_args [] = .err (.ParseError "Not enough parameters") := by
  refine ⟨?_, ?_, rfl⟩
  · intro extras
    rfl
  · intro a b extras
    rfl
